import Mathlib

/-!
# Verification of the PANTHER Live voice-assistant overlay

A shallow embedding of `web/static/js/panther-live.js` (the voice overlay:
agent-command dispatch, confirmation gate, playback queue, sample
conversion, session lifecycle, overlay teardown), together with proofs of
the behavioural properties of the pipeline.

Modelling conventions:
* JavaScript strings are Lean `String`s; the JS string operations used by
  the code (`trim`, `toLowerCase`, `split(/\s+/)`, `includes`) are defined
  below on the underlying character lists, matching the JS semantics on the
  ASCII inputs the code handles.
* The module-level mutable state of the IIFE is the record `Sys`; each
  event handler of the source becomes a state transformer.
* DOM/UI helper calls (`setState`, `setStatusText`, `setResponse`,
  `appendResponse`, `showError`) and the speech-channel call
  `speakSummary` are recorded in an `actions` trace.  The DOM layer (the
  overlay HTML and its status-line helper) is not part of the repository
  snapshot; UI updates are modelled as inert trace entries, exactly in the
  order in which the code performs them.
* The JavaScript event loop runs handlers to completion: the handler
  microtask continuations (promise resolutions of already-settled local
  promises, `finally` blocks) run before the next macrotask (WebSocket
  message, timer, stream chunk).  Consequently the `finally` block of
  `callVoiceCommandAPI` runs atomically with the step of `consumeSSEStream`
  that terminates consumption (a `confirmation_required` event, the end of
  the stream, or a thrown error), and is bundled into that step.
  Interleaving with other inbound events is possible between `reader.read()`
  suspensions, which is where the event-level steps are cut.
-/

namespace PantherLive

/-! ## JavaScript string primitives -/

/-- JS `String.prototype.trim` (drop leading/trailing whitespace),
on character lists. -/
def trimChars (l : List Char) : List Char :=
  ((l.dropWhile Char.isWhitespace).reverse.dropWhile Char.isWhitespace).reverse

/-- JS `s.trim()`. -/
def jsTrim (s : String) : String := ⟨trimChars s.data⟩

/-- JS `s.toLowerCase()` (ASCII range, which is all the code compares). -/
def jsToLowerCase (s : String) : String := ⟨s.data.map Char.toLower⟩

/-- Contiguous-sublist test on character lists. -/
def containsSeq (needle : List Char) : List Char → Bool
  | [] => needle.isEmpty
  | c :: cs => needle.isPrefixOf (c :: cs) || containsSeq needle cs

/-- JS `hay.includes(needle)`: contiguous-substring test. -/
def jsIncludes (hay needle : String) : Bool :=
  containsSeq needle.data hay.data

/-- Split a character list at every whitespace character (keeping empty
fragments between consecutive separators). -/
def splitAtWs : List Char → List Char → List (List Char)
  | [], cur => [cur.reverse]
  | c :: cs, cur =>
      if c.isWhitespace then cur.reverse :: splitAtWs cs []
      else splitAtWs cs (c :: cur)

/-- JS `transcript.trim().split(/\s+/).length` as computed by
`routeTranscript`: on the trimmed string, `/\s+/` collapses whitespace
runs, so the count is the number of maximal non-whitespace runs; on the
empty trimmed string JS yields `[""]`, of length 1. -/
def wordCount (s : String) : Nat :=
  let t := trimChars s.data
  if t = [] then 1
  else ((splitAtWs t []).filter (fun w => w ≠ [])).length

/-! ## Data model -/

/-- Payload of a `confirmation_required` stream event, stored verbatim as
`pendingConfirmation` (the code reads its `prompt` and `original_text`
fields). -/
structure ConfirmationData where
  intent : String
  prompt : String
  original_text : String
deriving DecidableEq, Repr

/-- One backend dispatch as issued by `callVoiceCommandAPI`: the JSON body
`{text, session_id, confirmed}` of the `POST /api/voice-command` request. -/
structure BackendCall where
  text : String
  session_id : Option String
  confirmed : Bool
deriving DecidableEq, Repr

/-- The backend response-stream protocol (the event
switch of `consumeSSEStream`), decoded to a tagged union. -/
inductive SSEEvent where
  | session (session_id : String)
  | progress (message : String)
  | chunk (text : String)
  | confirmation_required (data : ConfirmationData)
  | result (intent : String) (text : String)
  | summary (text : String)
  | error (message : String)
  | done
deriving DecidableEq, Repr

/-- Observable side effects of the handlers, in program order: UI updates,
speech-channel speak requests, and the teardown calls of `closeOverlay`. -/
inductive Action where
  | stateSet (s : String)
  | statusText (s : String)
  | responseSet (s : String)
  | responseAppend (s : String)
  | errorShow (s : String)
  | speakCall (s : String)
  | sidebarSync
  | micUIUpdate
  | micStop
  | idleTimerClear
  | playbackQueueClear
  | sessionCloseNotify (id : String)
  | wsClose
  | playbackCtxClose
deriving DecidableEq, Repr

/-- The module-level mutable state of `panther-live.js` that the agent
pipeline reads and writes, plus the `dispatches` and `actions` traces. -/
structure Sys where
  isOpen : Bool
  micOn : Bool
  assistantState : String
  agentSessionId : Option String
  isProcessingAgent : Bool
  pendingConfirmation : Option ConfirmationData
  dispatches : List BackendCall
  actions : List Action
deriving DecidableEq, Repr

/-! ## The handlers of the source, as state transformers -/

/-- `setState(s)`: records the UI update and the new `assistantState`. -/
def setState (s : String) (σ : Sys) : Sys :=
  { σ with assistantState := s, actions := σ.actions ++ [Action.stateSet s] }

/-- The entry of `callVoiceCommandAPI(text, confirmed)` up to and including
issuing the `fetch`: sets `isProcessingAgent`, shows the agent-processing
state and status line, and issues one backend request carrying the current
`agentSessionId`. -/
def callVoiceCommandAPIStart (text : String) (confirmed : Bool) (σ : Sys) : Sys :=
  let σ1 := setState "agent-processing" { σ with isProcessingAgent := true }
  { σ1 with
      actions := σ1.actions ++ [Action.statusText "🧠 Processing with PANTHER agent..."],
      dispatches := σ1.dispatches ++
        [{ text := text, session_id := σ.agentSessionId, confirmed := confirmed }] }

/-- The `finally` block of `callVoiceCommandAPI`: clears the in-flight flag
and returns the UI to listening (mic on) or idle (mic off). -/
def dispatchFinally (σ : Sys) : Sys :=
  if σ.micOn then setState "listening" { σ with isProcessingAgent := false }
  else setState "idle" { σ with isProcessingAgent := false }

/-- `handleConfirmationGate(data)`: stores the payload as
`pendingConfirmation`, sets the awaiting-confirmation state, shows the
prompt, and asks `speakSummary` to speak it. -/
def handleConfirmationGate (d : ConfirmationData) (σ : Sys) : Sys :=
  let σ1 := setState "awaiting-confirmation" { σ with pendingConfirmation := some d }
  { σ1 with actions := σ1.actions ++
      [Action.statusText ("⚠️ " ++ d.prompt), Action.responseSet d.prompt,
       Action.speakCall d.prompt] }

/-- One case of the event switch of `consumeSSEStream`.  The
`confirmation_required` case bundles the `return` from `consumeSSEStream`
and the `finally` of `callVoiceCommandAPI`, which run before any other
event handler (run-to-completion of the microtask chain). -/
def consumeEvent (σ : Sys) (e : SSEEvent) : Sys :=
  match e with
  | SSEEvent.session id => { σ with agentSessionId := some id }
  | SSEEvent.progress m => { σ with actions := σ.actions ++ [Action.statusText m] }
  | SSEEvent.chunk t => { σ with actions := σ.actions ++ [Action.responseAppend t] }
  | SSEEvent.confirmation_required d => dispatchFinally (handleConfirmationGate d σ)
  | SSEEvent.result _ t => { σ with actions := σ.actions ++ [Action.responseSet t] }
  | SSEEvent.summary t => { σ with actions := σ.actions ++ [Action.speakCall t] }
  | SSEEvent.error m =>
      { σ with actions := σ.actions ++
          [Action.errorShow m, Action.speakCall ("I ran into an issue. " ++ m)] }
  | SSEEvent.done => { σ with actions := σ.actions ++ [Action.sidebarSync] }

/-- The fixed affirmative-word list of `handleConfirmationResponse`. -/
def yesWords : List String :=
  ["yes", "yeah", "yep", "confirm", "proceed", "ok", "okay", "do it", "go ahead"]

/-- The match condition of `handleConfirmationResponse`: the lowercased,
trimmed transcript contains one of the affirmative words as a substring. -/
def isYesResponse (t : String) : Bool :=
  yesWords.any (fun w => jsIncludes (jsTrim (jsToLowerCase t)) w)

/-- `handleConfirmationResponse(transcript)`: on an affirmative match,
clears `pendingConfirmation` and re-issues the stored `original_text` with
`confirmed = true`; otherwise clears it, shows and speaks a cancellation
acknowledgement, and returns to listening/idle.  The `none` branch is
unreachable from `routeTranscript`, which calls this only when a
confirmation is pending. -/
def handleConfirmationResponse (t : String) (σ : Sys) : Sys :=
  if isYesResponse t then
    match σ.pendingConfirmation with
    | some p =>
        callVoiceCommandAPIStart p.original_text true { σ with pendingConfirmation := none }
    | none => σ
  else if σ.micOn then
    setState "listening"
      { σ with
        pendingConfirmation := none
        actions := σ.actions ++
          [Action.statusText "Cancelled.", Action.speakCall "Okay, I cancelled that."] }
  else
    setState "idle"
      { σ with
        pendingConfirmation := none
        actions := σ.actions ++
          [Action.statusText "Cancelled.", Action.speakCall "Okay, I cancelled that."] }

/-- `routeTranscript(transcript)`: pending-confirmation intercept, then the
word-count threshold, then the in-flight guard, then the backend call. -/
def routeTranscript (t : String) (σ : Sys) : Sys :=
  if σ.pendingConfirmation.isSome then handleConfirmationResponse t σ
  else if wordCount t ≤ 3 then σ
  else if σ.isProcessingAgent then σ
  else callVoiceCommandAPIStart t false σ

/-- `closeOverlay()`: no-op when already closed; otherwise mic off and UI
update, `stopMic`, `clearIdleTimer`, `clearPlaybackQueue`, then (when a
session id exists) the fire-and-forget `POST /api/voice-session/{id}/close`
whose rejection is swallowed by `.catch(() => {})`, then closing the Gemini
WebSocket and the playback `AudioContext`. -/
def closeOverlay (σ : Sys) : Sys :=
  if σ.isOpen then
    match σ.agentSessionId with
    | some id =>
        { σ with
          isOpen := false
          micOn := false
          agentSessionId := none
          actions := σ.actions ++
            [Action.micUIUpdate, Action.micStop, Action.idleTimerClear,
             Action.playbackQueueClear, Action.sessionCloseNotify id,
             Action.wsClose, Action.playbackCtxClose] }
    | none =>
        { σ with
          isOpen := false
          micOn := false
          actions := σ.actions ++
            [Action.micUIUpdate, Action.micStop, Action.idleTimerClear,
             Action.playbackQueueClear, Action.wsClose, Action.playbackCtxClose] }
  else σ

/-- `toggleMic()` restricted to the state the pipeline reads (mic flag and
assistant state; capture, connection and idle-timer plumbing are outside
the modelled state). -/
def toggleMic (σ : Sys) : Sys :=
  if σ.micOn then setState "idle" { σ with micOn := false }
  else setState "listening" { σ with micOn := true }

/-- The inbound events of one overlay-open period: a turn-complete
transcript routed by the Gemini handler, a decoded backend stream event
(only consumable while a dispatch is in flight), the two ways the stream of a dispatch ends (normal end of stream; a thrown fetch/HTTP/read error caught
by `callVoiceCommandAPI`), a mic toggle, and overlay close. -/
inductive Ev where
  | transcript (t : String)
  | stream (e : SSEEvent)
  | streamEnd
  | streamFail
  | micToggle
  | overlayClose
deriving DecidableEq, Repr

/-- One event-loop step. -/
def step (σ : Sys) (e : Ev) : Sys :=
  match e with
  | Ev.transcript t => routeTranscript t σ
  | Ev.stream se => if σ.isProcessingAgent then consumeEvent σ se else σ
  | Ev.streamEnd => if σ.isProcessingAgent then dispatchFinally σ else σ
  | Ev.streamFail =>
      if σ.isProcessingAgent then
        dispatchFinally
          { σ with actions := σ.actions ++
              [Action.errorShow "Connection error. Please try again."] }
      else σ
  | Ev.micToggle => toggleMic σ
  | Ev.overlayClose => closeOverlay σ

/-- The state established by `openOverlay()`: state idle, and the agent
state reset (`agentSessionId = null`, cleared buffers and flags). -/
def initSys : Sys :=
  { isOpen := true, micOn := false, assistantState := "idle",
    agentSessionId := none, isProcessingAgent := false,
    pendingConfirmation := none, dispatches := [], actions := [] }

/-- Run a sequence of inbound events from a fresh overlay. -/
def run (evs : List Ev) : Sys := evs.foldl step initSys

/-- Consume a list of stream events of the current dispatch, one
event-loop step each. -/
def foldStream (σ : Sys) (es : List SSEEvent) : Sys :=
  es.foldl (fun s e => step s (Ev.stream e)) σ

/-- The session id carried by an event, when it is a `session` stream
event. -/
def evSessionId : Ev → Option String
  | Ev.stream (SSEEvent.session id) => some id
  | _ => none

/-- The ids carried by the `session` stream events of an event sequence. -/
def sessionIdsOf (evs : List Ev) : List String := evs.filterMap evSessionId

/-! ## Speech channel: `speakSummary` -/

/-- The channel state `speakSummary` inspects: `geminiWs` non-null, its
`readyState === WebSocket.OPEN`, and the `wsReady` setup-acknowledged
flag. -/
structure ChannelState where
  present : Bool
  isOpen : Bool
  ready : Bool
deriving DecidableEq, Repr

/-- `speakSummary(text)`: the spoken-text instruction turns sent on the
duplex channel.  When the guard fails (`!text || !geminiWs ||
geminiWs.readyState !== WebSocket.OPEN || !wsReady`) the function returns
after a console log: nothing is sent, and the module keeps no buffer of
unspoken text, so the text is discarded rather than deferred. -/
def speakSummary (ch : ChannelState) (text : String) : List String :=
  if text = "" ∨ ch.present = false ∨ ch.isOpen = false ∨ ch.ready = false then []
  else ["Please read this aloud naturally: \"" ++ text ++ "\""]

/-! ## PlaybackSequencer (`queueAudioPlayback` / `processPlaybackQueue`) -/

/-- One entry of the playback trace: a fragment starts playing on the
output context / the current fragment finishes. -/
inductive PbItem where
  | start (f : String)
  | complete (f : String)
deriving DecidableEq, Repr

/-- The playback state of the module: the `playbackQueue` FIFO of base64
fragments, the `isPlaying` flag, the fragment held by the current source
node (shadow of the running `AudioBufferSourceNode`), and the
start/completion trace. -/
structure PbState where
  playbackQueue : List String
  isPlaying : Bool
  playing : Option String
  trace : List PbItem
deriving DecidableEq, Repr

/-- `processPlaybackQueue()`: returns if already playing; marks idle on an
empty queue; otherwise sets `isPlaying`, shifts the head fragment and
starts it. -/
def processPlaybackQueue (σ : PbState) : PbState :=
  if σ.isPlaying then σ
  else
    match σ.playbackQueue with
    | [] => { σ with isPlaying := false }
    | f :: rest =>
        { σ with
          isPlaying := true
          playbackQueue := rest
          playing := some f
          trace := σ.trace ++ [PbItem.start f] }

/-- `queueAudioPlayback(base64Audio)`: push onto the FIFO, then drain if
not already playing. -/
def queueAudioPlayback (f : String) (σ : PbState) : PbState :=
  if σ.isPlaying then { σ with playbackQueue := σ.playbackQueue ++ [f] }
  else processPlaybackQueue { σ with playbackQueue := σ.playbackQueue ++ [f] }

/-- `source.onended` (the decode-error catch behaves the same way: clear
`isPlaying`, then advance): the current fragment finishes and the drain
loop starts the next fragment, if any. -/
def playbackEnded (σ : PbState) : PbState :=
  match σ.playing with
  | none => σ
  | some f =>
      processPlaybackQueue
        { σ with
          isPlaying := false
          playing := none
          trace := σ.trace ++ [PbItem.complete f] }

/-- Inbound playback events: a fragment arrives from the speech channel;
the currently playing fragment finishes. -/
inductive PbEv where
  | enqueue (f : String)
  | finish
deriving DecidableEq, Repr

/-- One playback step. -/
def pbStep (σ : PbState) (e : PbEv) : PbState :=
  match e with
  | PbEv.enqueue f => queueAudioPlayback f σ
  | PbEv.finish => playbackEnded σ

/-- Fresh playback state (`playbackQueue = []`, `isPlaying = false`). -/
def pbInit : PbState :=
  { playbackQueue := [], isPlaying := false, playing := none, trace := [] }

/-- Run a sequence of playback events. -/
def pbRun (evs : List PbEv) : PbState := evs.foldl pbStep pbInit

/-- The fragments enqueued by an event sequence, in arrival order. -/
def pbArrivals (evs : List PbEv) : List String :=
  evs.filterMap (fun e => match e with | PbEv.enqueue f => some f | PbEv.finish => none)

/-- The fragments started by a trace, in start order. -/
def startsOf : List PbItem → List String
  | [] => []
  | PbItem.start f :: r => f :: startsOf r
  | PbItem.complete _ :: r => startsOf r

/-- Single step of the playback-trace validity checker: a start is legal
only when nothing is playing, a completion only of the fragment currently
playing. -/
def chainStep : Option String → PbItem → Option (Option String)
  | none, PbItem.start f => some (some f)
  | none, PbItem.complete _ => none
  | some _, PbItem.start _ => none
  | some f, PbItem.complete g => if f = g then some none else none

/-- Run the validity checker over a trace; `some p` means the trace is a
legal one-at-a-time alternation leaving fragment `p` playing. -/
def chainRun : Option String → List PbItem → Option (Option String)
  | p, [] => some p
  | p, i :: r =>
      match chainStep p i with
      | none => none
      | some q => chainRun q r

/-! ## AudioCaptureSource sample conversion (`floatTo16BitPCM`) -/

/-- Truncation toward zero: the integer conversion JS applies when storing
into an `Int16Array` element (`ToIntegerOrInfinity`). -/
def truncQ (x : ℚ) : ℤ := if 0 ≤ x then ⌊x⌋ else ⌈x⌉

/-- `Int16Array` element storage: wrap the truncated integer to the signed
16-bit range. -/
def toInt16 (n : ℤ) : ℤ := (n + 32768) % 65536 - 32768

/-- `Math.max(-1, Math.min(1, x))`. -/
def jsClamp (x : ℚ) : ℚ := max (-1) (min 1 x)

/-- The per-sample body of `floatTo16BitPCM`:
`s = clamp(x); int16[i] = s < 0 ? s * 0x8000 : s * 0x7FFF`.  The float32
samples and both products are exactly representable in the doubles JS
computes with, so the rational model is exact. -/
def pcmSample (x : ℚ) : ℤ :=
  toInt16 (truncQ (if jsClamp x < 0 then jsClamp x * 32768 else jsClamp x * 32767))

/-- `floatTo16BitPCM(float32Array)`. -/
def floatTo16BitPCM (frame : List ℚ) : List ℤ := frame.map pcmSample

/-! ## Projection lemmas for the state transformers -/

@[simp] lemma setState_isOpen (s : String) (σ : Sys) :
    (setState s σ).isOpen = σ.isOpen := rfl

@[simp] lemma setState_micOn (s : String) (σ : Sys) :
    (setState s σ).micOn = σ.micOn := rfl

@[simp] lemma setState_assistantState (s : String) (σ : Sys) :
    (setState s σ).assistantState = s := rfl

@[simp] lemma setState_agentSessionId (s : String) (σ : Sys) :
    (setState s σ).agentSessionId = σ.agentSessionId := rfl

@[simp] lemma setState_isProcessingAgent (s : String) (σ : Sys) :
    (setState s σ).isProcessingAgent = σ.isProcessingAgent := rfl

@[simp] lemma setState_pendingConfirmation (s : String) (σ : Sys) :
    (setState s σ).pendingConfirmation = σ.pendingConfirmation := rfl

@[simp] lemma setState_dispatches (s : String) (σ : Sys) :
    (setState s σ).dispatches = σ.dispatches := rfl

@[simp] lemma setState_actions (s : String) (σ : Sys) :
    (setState s σ).actions = σ.actions ++ [Action.stateSet s] := rfl

@[simp] lemma apiStart_micOn (t : String) (c : Bool) (σ : Sys) :
    (callVoiceCommandAPIStart t c σ).micOn = σ.micOn := rfl

@[simp] lemma apiStart_isProcessingAgent (t : String) (c : Bool) (σ : Sys) :
    (callVoiceCommandAPIStart t c σ).isProcessingAgent = true := rfl

@[simp] lemma apiStart_pendingConfirmation (t : String) (c : Bool) (σ : Sys) :
    (callVoiceCommandAPIStart t c σ).pendingConfirmation = σ.pendingConfirmation := rfl

@[simp] lemma apiStart_agentSessionId (t : String) (c : Bool) (σ : Sys) :
    (callVoiceCommandAPIStart t c σ).agentSessionId = σ.agentSessionId := rfl

@[simp] lemma apiStart_assistantState (t : String) (c : Bool) (σ : Sys) :
    (callVoiceCommandAPIStart t c σ).assistantState = "agent-processing" := rfl

@[simp] lemma apiStart_dispatches (t : String) (c : Bool) (σ : Sys) :
    (callVoiceCommandAPIStart t c σ).dispatches =
      σ.dispatches ++ [{ text := t, session_id := σ.agentSessionId, confirmed := c }] := rfl

@[simp] lemma apiStart_isOpen (t : String) (c : Bool) (σ : Sys) :
    (callVoiceCommandAPIStart t c σ).isOpen = σ.isOpen := rfl

@[simp] lemma dispatchFinally_micOn (σ : Sys) :
    (dispatchFinally σ).micOn = σ.micOn := by
  unfold dispatchFinally; split <;> rfl

@[simp] lemma dispatchFinally_isProcessingAgent (σ : Sys) :
    (dispatchFinally σ).isProcessingAgent = false := by
  unfold dispatchFinally; split <;> rfl

@[simp] lemma dispatchFinally_pendingConfirmation (σ : Sys) :
    (dispatchFinally σ).pendingConfirmation = σ.pendingConfirmation := by
  unfold dispatchFinally; split <;> rfl

@[simp] lemma dispatchFinally_agentSessionId (σ : Sys) :
    (dispatchFinally σ).agentSessionId = σ.agentSessionId := by
  unfold dispatchFinally; split <;> rfl

@[simp] lemma dispatchFinally_dispatches (σ : Sys) :
    (dispatchFinally σ).dispatches = σ.dispatches := by
  unfold dispatchFinally; split <;> rfl

@[simp] lemma dispatchFinally_assistantState (σ : Sys) :
    (dispatchFinally σ).assistantState = if σ.micOn then "listening" else "idle" := by
  unfold dispatchFinally; split <;> simp_all

@[simp] lemma gate_micOn (d : ConfirmationData) (σ : Sys) :
    (handleConfirmationGate d σ).micOn = σ.micOn := rfl

@[simp] lemma gate_isProcessingAgent (d : ConfirmationData) (σ : Sys) :
    (handleConfirmationGate d σ).isProcessingAgent = σ.isProcessingAgent := rfl

@[simp] lemma gate_pendingConfirmation (d : ConfirmationData) (σ : Sys) :
    (handleConfirmationGate d σ).pendingConfirmation = some d := rfl

@[simp] lemma gate_agentSessionId (d : ConfirmationData) (σ : Sys) :
    (handleConfirmationGate d σ).agentSessionId = σ.agentSessionId := rfl

@[simp] lemma gate_dispatches (d : ConfirmationData) (σ : Sys) :
    (handleConfirmationGate d σ).dispatches = σ.dispatches := rfl

/-! ## In-flight/pending invariant

A `confirmation_required` event stores the pending confirmation and ends
the dispatch in one event-loop step, so no reachable state has a dispatch
in flight and a confirmation pending at once. -/

/-- While a dispatch is in flight, no confirmation is pending. -/
def FlagPendingInv (σ : Sys) : Prop :=
  σ.isProcessingAgent = true → σ.pendingConfirmation = none

lemma flagPendingInv_initSys : FlagPendingInv initSys := fun _ => rfl

lemma consumeEvent_flagPending (σ : Sys) (se : SSEEvent)
    (h : σ.pendingConfirmation = none) :
    FlagPendingInv (consumeEvent σ se) := by
  cases se <;> simp [consumeEvent, FlagPendingInv, h]

lemma handleConfirmationResponse_flagPending (t : String) (σ : Sys)
    (h : FlagPendingInv σ) :
    FlagPendingInv (handleConfirmationResponse t σ) := by
  unfold handleConfirmationResponse
  split
  · cases hp : σ.pendingConfirmation with
    | some p => intro _; simp
    | none => exact h
  · split <;> (intro _; simp)

lemma flagPendingInv_step (σ : Sys) (e : Ev) (h : FlagPendingInv σ) :
    FlagPendingInv (step σ e) := by
  cases e with
  | transcript t =>
      simp only [step, routeTranscript]
      by_cases hp : σ.pendingConfirmation.isSome
      · simp only [hp, if_true]
        exact handleConfirmationResponse_flagPending t σ h
      · have hnone : σ.pendingConfirmation = none := by
          cases hσ : σ.pendingConfirmation <;> simp_all
        simp only [hp, Bool.false_eq_true, if_false]
        split
        · exact h
        · split
          · exact h
          · intro _; simp [hnone]
  | stream se =>
      simp only [step]
      split
      · exact consumeEvent_flagPending σ se (h (by assumption))
      · exact h
  | streamEnd =>
      simp only [step]; split
      · intro hc; simp at hc
      · exact h
  | streamFail =>
      simp only [step]; split
      · intro hc; simp at hc
      · exact h
  | micToggle =>
      simp only [step, toggleMic]
      split <;> (intro hc; simp; exact h (by simpa using hc))
  | overlayClose =>
      simp only [step, closeOverlay]
      split
      · cases hs : σ.agentSessionId with
        | some id => intro hc; simp at hc ⊢; exact h hc
        | none => intro hc; simp at hc ⊢; exact h hc
      · exact h

lemma flagPendingInv_foldl (evs : List Ev) (σ : Sys) (h : FlagPendingInv σ) :
    FlagPendingInv (evs.foldl step σ) := by
  induction evs generalizing σ with
  | nil => exact h
  | cons e rest ih => exact ih (step σ e) (flagPendingInv_step σ e h)

lemma flagPendingInv_run (evs : List Ev) : FlagPendingInv (run evs) :=
  flagPendingInv_foldl evs initSys flagPendingInv_initSys

/-! ## Claim theorems: dispatcher -/

/-- C1: for every sequence of inbound turn-complete transcripts and
backend stream events, at most one backend dispatch is in flight at any
instant: in any reachable state whose in-flight flag `isProcessingAgent`
is set, `routeTranscript` issues no backend call; `callVoiceCommandAPI`
sets the flag with the request it issues; and every way a dispatch ends
(end of stream, a thrown request error, or the confirmation gate) clears
the flag. -/
theorem atMostOneDispatchInFlight (evs : List Ev) (t : String)
    (h : (run evs).isProcessingAgent = true) :
    (step (run evs) (Ev.transcript t)).dispatches = (run evs).dispatches ∧
    (∀ (σ : Sys) (text : String) (c : Bool),
        (callVoiceCommandAPIStart text c σ).isProcessingAgent = true ∧
        (callVoiceCommandAPIStart text c σ).dispatches =
          σ.dispatches ++ [{ text := text, session_id := σ.agentSessionId, confirmed := c }]) ∧
    (∀ (σ : Sys) (d : ConfirmationData), σ.isProcessingAgent = true →
        (step σ Ev.streamEnd).isProcessingAgent = false ∧
        (step σ Ev.streamFail).isProcessingAgent = false ∧
        (step σ (Ev.stream (SSEEvent.confirmation_required d))).isProcessingAgent = false) := by
  refine ⟨?_, fun σ text c => ⟨rfl, rfl⟩, fun σ d hσ => ⟨?_, ?_, ?_⟩⟩
  · have hnone := flagPendingInv_run evs h
    simp only [step, routeTranscript, hnone, Option.isSome_none, Bool.false_eq_true,
      if_false, h, if_true]
    split <;> rfl
  · simp [step, hσ]
  · simp [step, hσ]
  · simp [step, hσ, consumeEvent]

/-- C1 witness: a concrete reachable in-flight state in which a second
transcript adds no dispatch. -/
theorem atMostOneDispatchInFlight_witness :
    (run [Ev.transcript "please research the eiffel tower history"]).isProcessingAgent = true ∧
    (step (run [Ev.transcript "please research the eiffel tower history"])
        (Ev.transcript "now please do another long task")).dispatches =
      (run [Ev.transcript "please research the eiffel tower history"]).dispatches :=
  ⟨by decide,
   (atMostOneDispatchInFlight [Ev.transcript "please research the eiffel tower history"]
      "now please do another long task" (by decide)).1⟩

/-- C2: with a stored PendingConfirmation, an affirmative transcript
clears it and re-issues exactly one backend call carrying the stored
`original_text` with `confirmed = true`; a non-affirmative transcript
clears it, requests a spoken cancellation acknowledgement, and issues no
backend call. -/
theorem confirmationRoundTrip (σ : Sys) (p : ConfirmationData) (t : String)
    (hp : σ.pendingConfirmation = some p) :
    (isYesResponse t = true →
        (routeTranscript t σ).pendingConfirmation = none ∧
        (routeTranscript t σ).dispatches = σ.dispatches ++
          [{ text := p.original_text, session_id := σ.agentSessionId, confirmed := true }]) ∧
    (isYesResponse t = false →
        (routeTranscript t σ).pendingConfirmation = none ∧
        (routeTranscript t σ).dispatches = σ.dispatches ∧
        Action.speakCall "Okay, I cancelled that." ∈ (routeTranscript t σ).actions) := by
  have hs : σ.pendingConfirmation.isSome := by simp [hp]
  constructor
  · intro hy
    simp [routeTranscript, hs, handleConfirmationResponse, hy, hp]
  · intro hn
    simp only [routeTranscript, hs, if_true, handleConfirmationResponse, hn,
      Bool.false_eq_true, if_false]
    split <;> simp

/-- C2 witness: a concrete pending confirmation answered with "yes". -/
theorem confirmationRoundTrip_witness :
    ({ initSys with
        pendingConfirmation :=
          some { intent := "browser_task", prompt := "This will open twitter.com. Continue?",
                 original_text := "open twitter.com" } } : Sys).pendingConfirmation =
      some { intent := "browser_task", prompt := "This will open twitter.com. Continue?",
             original_text := "open twitter.com" } ∧
    (isYesResponse "yes" = true →
        (routeTranscript "yes"
            { initSys with
              pendingConfirmation :=
                some { intent := "browser_task",
                       prompt := "This will open twitter.com. Continue?",
                       original_text := "open twitter.com" } }).pendingConfirmation = none ∧
        (routeTranscript "yes"
            { initSys with
              pendingConfirmation :=
                some { intent := "browser_task",
                       prompt := "This will open twitter.com. Continue?",
                       original_text := "open twitter.com" } }).dispatches =
          ({ initSys with
             pendingConfirmation :=
               some { intent := "browser_task",
                      prompt := "This will open twitter.com. Continue?",
                      original_text := "open twitter.com" } } : Sys).dispatches ++
            [{ text := "open twitter.com", session_id := none, confirmed := true }]) ∧
    (isYesResponse "yes" = false →
        (routeTranscript "yes"
            { initSys with
              pendingConfirmation :=
                some { intent := "browser_task",
                       prompt := "This will open twitter.com. Continue?",
                       original_text := "open twitter.com" } }).pendingConfirmation = none ∧
        (routeTranscript "yes"
            { initSys with
              pendingConfirmation :=
                some { intent := "browser_task",
                       prompt := "This will open twitter.com. Continue?",
                       original_text := "open twitter.com" } }).dispatches =
          ({ initSys with
             pendingConfirmation :=
               some { intent := "browser_task",
                      prompt := "This will open twitter.com. Continue?",
                      original_text := "open twitter.com" } } : Sys).dispatches ∧
        Action.speakCall "Okay, I cancelled that." ∈
          (routeTranscript "yes"
            { initSys with
              pendingConfirmation :=
                some { intent := "browser_task",
                       prompt := "This will open twitter.com. Continue?",
                       original_text := "open twitter.com" } }).actions) :=
  ⟨rfl,
   confirmationRoundTrip _
     { intent := "browser_task", prompt := "This will open twitter.com. Continue?",
       original_text := "open twitter.com" } "yes" rfl⟩

/-- C3: with no confirmation pending, a transcript of at most three words
(in particular the one-word transcript "hello") leaves the whole state
unchanged: it never reaches `callVoiceCommandAPI` and the in-flight flag
is untouched. -/
theorem shortTranscriptNeverDispatched (σ : Sys) (t : String)
    (hp : σ.pendingConfirmation = none) (hw : wordCount t ≤ 3) :
    routeTranscript t σ = σ := by
  simp [routeTranscript, hp, hw]

/-- C3 witness: the transcript "hello". -/
theorem shortTranscriptNeverDispatched_witness :
    initSys.pendingConfirmation = none ∧ wordCount "hello" ≤ 3 ∧
    routeTranscript "hello" initSys = initSys :=
  ⟨rfl, by decide, shortTranscriptNeverDispatched initSys "hello" rfl (by decide)⟩

/-! ## Claim theorems: confirmation gate step (C4) -/

/-- C4 counterexample: a dispatch consumes `confirmation_required`, stores
the payload, and stops consuming, but the assistant state after the step
is "idle" (the mic is off), not "awaiting-confirmation": the state set by
`handleConfirmationGate` is immediately overwritten by the `finally`
block of `callVoiceCommandAPI`, which runs in the same event-loop step. -/
theorem confirmationGateStateClobbered :
    ((step (run [Ev.transcript "please research the eiffel tower history"])
        (Ev.stream (SSEEvent.confirmation_required
          { intent := "browser_task", prompt := "This will open twitter.com. Continue?",
            original_text := "open twitter.com" }))).pendingConfirmation =
      some { intent := "browser_task", prompt := "This will open twitter.com. Continue?",
             original_text := "open twitter.com" }) ∧
    ((step (run [Ev.transcript "please research the eiffel tower history"])
        (Ev.stream (SSEEvent.confirmation_required
          { intent := "browser_task", prompt := "This will open twitter.com. Continue?",
            original_text := "open twitter.com" }))).assistantState = "idle") ∧
    ¬ ((step (run [Ev.transcript "please research the eiffel tower history"])
        (Ev.stream (SSEEvent.confirmation_required
          { intent := "browser_task", prompt := "This will open twitter.com. Continue?",
            original_text := "open twitter.com" }))).assistantState =
        "awaiting-confirmation") := by
  decide

/-- C4 (amended): consuming a `confirmation_required` event stores the
payload as the pending confirmation, performs the
`setState("awaiting-confirmation")` transition, shows and speaks the
prompt, ends the dispatch, and consumes no further event of the stream;
the dispatch-end cleanup running in the same step then resets the
assistant state to listening (mic on) or idle (mic off). -/
theorem confirmationGateStep (σ : Sys) (d : ConfirmationData)
    (h : σ.isProcessingAgent = true) :
    (step σ (Ev.stream (SSEEvent.confirmation_required d))).pendingConfirmation = some d ∧
    (step σ (Ev.stream (SSEEvent.confirmation_required d))).isProcessingAgent = false ∧
    (step σ (Ev.stream (SSEEvent.confirmation_required d))).actions = σ.actions ++
      [Action.stateSet "awaiting-confirmation", Action.statusText ("⚠️ " ++ d.prompt),
       Action.responseSet d.prompt, Action.speakCall d.prompt,
       Action.stateSet (if σ.micOn then "listening" else "idle")] ∧
    (step σ (Ev.stream (SSEEvent.confirmation_required d))).assistantState =
      (if σ.micOn then "listening" else "idle") ∧
    (∀ e2 : SSEEvent,
        step (step σ (Ev.stream (SSEEvent.confirmation_required d))) (Ev.stream e2) =
          step σ (Ev.stream (SSEEvent.confirmation_required d))) := by
  refine ⟨?_, ?_, ?_, ?_, ?_⟩
  · simp [step, h, consumeEvent]
  · simp [step, h, consumeEvent]
  · simp only [step, h, if_true, consumeEvent]
    by_cases hm : σ.micOn <;>
      simp [dispatchFinally, hm, handleConfirmationGate, setState]
  · simp only [step, h, if_true, consumeEvent]
    by_cases hm : σ.micOn <;> simp [hm]
  · intro e2
    have hflag : (step σ (Ev.stream (SSEEvent.confirmation_required d))).isProcessingAgent
        = false := by simp [step, h, consumeEvent]
    generalize hg : step σ (Ev.stream (SSEEvent.confirmation_required d)) = σ2 at hflag ⊢
    simp [step, hflag]

/-! ### Stream-consumption preservation lemmas (for C5) -/

lemma consumeEvent_micOn (σ : Sys) (se : SSEEvent) :
    (consumeEvent σ se).micOn = σ.micOn := by
  cases se <;> simp [consumeEvent]

lemma consumeEvent_clean (σ : Sys) (se : SSEEvent)
    (h : σ.isProcessingAgent = true) :
    ((consumeEvent σ se).isProcessingAgent = true ∧
      (consumeEvent σ se).assistantState = σ.assistantState) ∨
    ((consumeEvent σ se).isProcessingAgent = false ∧
      (consumeEvent σ se).assistantState = (if σ.micOn then "listening" else "idle")) := by
  cases se <;> simp [consumeEvent, h]

lemma foldStream_clean (es : List SSEEvent) (σ : Sys)
    (h : (σ.isProcessingAgent = true ∧ σ.assistantState = "agent-processing") ∨
         (σ.isProcessingAgent = false ∧
          σ.assistantState = (if σ.micOn then "listening" else "idle"))) :
    (foldStream σ es).micOn = σ.micOn ∧
    (((foldStream σ es).isProcessingAgent = true ∧
       (foldStream σ es).assistantState = "agent-processing") ∨
     ((foldStream σ es).isProcessingAgent = false ∧
       (foldStream σ es).assistantState = (if σ.micOn then "listening" else "idle"))) := by
  induction es generalizing σ with
  | nil => exact ⟨rfl, h⟩
  | cons e rest ih =>
      rcases h with ⟨hf, hs⟩ | ⟨hf, hs⟩
      · have hstep : step σ (Ev.stream e) = consumeEvent σ e := by simp [step, hf]
        have hmic : (consumeEvent σ e).micOn = σ.micOn := consumeEvent_micOn σ e
        rcases consumeEvent_clean σ e hf with ⟨hf2, hs2⟩ | ⟨hf2, hs2⟩
        · have := ih (consumeEvent σ e) (Or.inl ⟨hf2, hs2.trans hs⟩)
          simpa [foldStream, hstep, hmic] using this
        · have := ih (consumeEvent σ e) (Or.inr ⟨hf2, by rw [hs2, hmic]⟩)
          simpa [foldStream, hstep, hmic] using this
      · have hstep : step σ (Ev.stream e) = σ := by simp [step, hf]
        have := ih σ (Or.inr ⟨hf, hs⟩)
        simpa [foldStream, hstep] using this

/-- C5: any dispatch — in particular one whose stream yields a mid-stream
`error` event or whose request fails — ends with the in-flight flag
cleared and the assistant state at listening (mic on) or idle (mic off);
it never remains at agent-processing. -/
theorem dispatchEndsClean (σ : Sys) (es : List SSEEvent) (term : Ev)
    (hσ : σ.isProcessingAgent = true ∧ σ.assistantState = "agent-processing")
    (hterm : term = Ev.streamEnd ∨ term = Ev.streamFail) :
    (step (foldStream σ es) term).isProcessingAgent = false ∧
    (step (foldStream σ es) term).assistantState =
      (if σ.micOn then "listening" else "idle") ∧
    (step (foldStream σ es) term).assistantState ≠ "agent-processing" := by
  obtain ⟨hmic, hclean⟩ := foldStream_clean es σ (Or.inl hσ)
  have key : (step (foldStream σ es) term).isProcessingAgent = false ∧
      (step (foldStream σ es) term).assistantState =
        (if σ.micOn then "listening" else "idle") := by
    rcases hterm with rfl | rfl <;>
      rcases hclean with ⟨hf, h2⟩ | ⟨hf, h2⟩ <;>
        simp [step, hf, h2, hmic]
  refine ⟨key.1, key.2, ?_⟩
  rw [key.2]
  by_cases hm : σ.micOn <;> simp [hm]

/-- C5 witness: a dispatch that sees a mid-stream `error` event and then a
failed read. -/
theorem dispatchEndsClean_witness :
    ((run [Ev.transcript "please research the eiffel tower history"]).isProcessingAgent
        = true ∧
      (run [Ev.transcript "please research the eiffel tower history"]).assistantState
        = "agent-processing") ∧
    (step (foldStream (run [Ev.transcript "please research the eiffel tower history"])
        [SSEEvent.error "backend exploded"]) Ev.streamFail).isProcessingAgent = false ∧
    (step (foldStream (run [Ev.transcript "please research the eiffel tower history"])
        [SSEEvent.error "backend exploded"]) Ev.streamFail).assistantState =
      (if (run [Ev.transcript "please research the eiffel tower history"]).micOn
        then "listening" else "idle") ∧
    (step (foldStream (run [Ev.transcript "please research the eiffel tower history"])
        [SSEEvent.error "backend exploded"]) Ev.streamFail).assistantState ≠
      "agent-processing" :=
  ⟨⟨by decide, by decide⟩,
   dispatchEndsClean (run [Ev.transcript "please research the eiffel tower history"])
     [SSEEvent.error "backend exploded"] Ev.streamFail ⟨by decide, by decide⟩
     (Or.inr rfl)⟩

/-! ## Claim theorems: PlaybackSequencer (C7) -/

lemma startsOf_append (t u : List PbItem) :
    startsOf (t ++ u) = startsOf t ++ startsOf u := by
  induction t with
  | nil => rfl
  | cons i r ih => cases i <;> simp [startsOf, ih]

lemma chainRun_append (p : Option String) (t u : List PbItem) :
    chainRun p (t ++ u) = (chainRun p t).bind (fun q => chainRun q u) := by
  induction t generalizing p with
  | nil => rfl
  | cons i r ih =>
      simp only [List.cons_append, chainRun]
      cases chainStep p i <;> simp [ih]

/-- Combined playback invariant: arrivals are the started fragments
followed by the pending queue; the trace is a legal one-at-a-time
alternation ending at the current source node; the `isPlaying` flag
tracks the source node. -/
def PbInv (σ : PbState) (arr : List String) : Prop :=
  startsOf σ.trace ++ σ.playbackQueue = arr ∧
  chainRun none σ.trace = some σ.playing ∧
  σ.isPlaying = σ.playing.isSome

lemma pbInv_init : PbInv pbInit [] := ⟨rfl, rfl, rfl⟩

lemma pbInv_processPlaybackQueue (σ : PbState) (arr : List String)
    (h : PbInv σ arr) (hidle : σ.isPlaying = false) :
    PbInv (processPlaybackQueue σ) arr := by
  obtain ⟨h1, h2, h3⟩ := h
  have hp : σ.playing = none := by
    cases hσ : σ.playing <;> simp_all
  unfold processPlaybackQueue
  rw [hidle]
  simp only [Bool.false_eq_true, if_false]
  cases hq : σ.playbackQueue with
  | nil =>
      refine ⟨?_, ?_, ?_⟩ <;> simp_all
  | cons f rest =>
      refine ⟨?_, ?_, ?_⟩
      · simp only [startsOf_append, startsOf]
        rw [← h1, hq]; simp
      · simp [chainRun_append, h2, hp, chainRun, chainStep]
      · simp

lemma pbInv_step (σ : PbState) (arr : List String) (e : PbEv)
    (h : PbInv σ arr) :
    PbInv (pbStep σ e)
      (arr ++ (match e with | PbEv.enqueue f => [f] | PbEv.finish => [])) := by
  obtain ⟨h1, h2, h3⟩ := h
  cases e with
  | enqueue f =>
      simp only [pbStep, queueAudioPlayback]
      by_cases hb : σ.isPlaying
      · rw [if_pos hb]
        exact ⟨by simp [← h1], h2, h3⟩
      · rw [if_neg hb]
        apply pbInv_processPlaybackQueue
        · exact ⟨by simp [← h1], h2, by simpa using h3⟩
        · simpa using hb
  | finish =>
      simp only [pbStep, playbackEnded]
      cases hp : σ.playing with
      | none => exact ⟨by simpa using h1, by simpa [hp] using h2, by simp_all⟩
      | some f =>
          apply pbInv_processPlaybackQueue
          · refine ⟨?_, ?_, ?_⟩
            · simpa [startsOf_append, startsOf] using h1
            · rw [hp] at h2
              simp [chainRun_append, h2, chainRun, chainStep]
            · simp
          · simp

lemma pbInv_foldl (evs : List PbEv) (σ : PbState) (arr : List String)
    (h : PbInv σ arr) :
    PbInv (evs.foldl pbStep σ) (arr ++ pbArrivals evs) := by
  induction evs generalizing σ arr with
  | nil => simpa [pbArrivals] using h
  | cons e rest ih =>
      have hstep := pbInv_step σ arr e h
      have := ih (pbStep σ e) _ hstep
      cases e <;> simpa [pbArrivals, List.filterMap_cons] using this

/-- C7: for every sequence of enqueued fragments and playback completions,
the playback trace is a legal one-fragment-at-a-time alternation (a
fragment starts only when nothing is playing, and only the playing
fragment completes), and the fragments start exactly in arrival (FIFO)
order: the start order is a prefix of the arrival order. -/
theorem playbackFIFO (evs : List PbEv) :
    startsOf (pbRun evs).trace <+: pbArrivals evs ∧
    chainRun none (pbRun evs).trace = some (pbRun evs).playing ∧
    (pbRun evs).isPlaying = (pbRun evs).playing.isSome := by
  have h := pbInv_foldl evs pbInit [] pbInv_init
  obtain ⟨h1, h2, h3⟩ := h
  exact ⟨⟨(pbRun evs).playbackQueue, by simpa [pbRun] using h1⟩,
    by simpa [pbRun] using h2, by simpa [pbRun] using h3⟩

/-! ## Claim theorems: session id (C9) -/

lemma handleConfirmationResponse_agentSessionId (t : String) (σ : Sys) :
    (handleConfirmationResponse t σ).agentSessionId = σ.agentSessionId := by
  unfold handleConfirmationResponse
  split
  · cases σ.pendingConfirmation <;> simp
  · split <;> simp

lemma routeTranscript_agentSessionId (t : String) (σ : Sys) :
    (routeTranscript t σ).agentSessionId = σ.agentSessionId := by
  unfold routeTranscript
  split
  · exact handleConfirmationResponse_agentSessionId t σ
  · split
    · rfl
    · split <;> simp

lemma consumeEvent_agentSessionId (σ : Sys) (se : SSEEvent) :
    (consumeEvent σ se).agentSessionId = σ.agentSessionId ∨
    ∃ id, se = SSEEvent.session id ∧ (consumeEvent σ se).agentSessionId = some id := by
  cases se <;> simp [consumeEvent]

lemma closeOverlay_agentSessionId (σ : Sys) :
    (closeOverlay σ).agentSessionId = none ∨
    (closeOverlay σ).agentSessionId = σ.agentSessionId := by
  unfold closeOverlay
  split
  · cases σ.agentSessionId <;> simp
  · right; rfl

lemma sessionId_step (σ : Sys) (e : Ev) (v : String)
    (h : σ.agentSessionId = none ∨ σ.agentSessionId = some v)
    (he : ∀ id, evSessionId e = some id → id = v) :
    (step σ e).agentSessionId = none ∨ (step σ e).agentSessionId = some v := by
  cases e with
  | transcript t => rw [step, routeTranscript_agentSessionId]; exact h
  | stream se =>
      simp only [step]
      split
      · rcases consumeEvent_agentSessionId σ se with hu | ⟨id, rfl, hid⟩
        · rw [hu]; exact h
        · right
          rw [hid, he id rfl]
      · exact h
  | streamEnd =>
      simp only [step]
      split
      · rw [dispatchFinally_agentSessionId]; exact h
      · exact h
  | streamFail =>
      simp only [step]
      split
      · rw [dispatchFinally_agentSessionId]; exact h
      · exact h
  | micToggle =>
      simp only [step, toggleMic]
      split <;> simpa using h
  | overlayClose =>
      rcases closeOverlay_agentSessionId σ with hc | hc
      · left; exact hc
      · rw [step, hc]; exact h

lemma sessionId_foldl (evs : List Ev) (σ : Sys) (v : String)
    (h : σ.agentSessionId = none ∨ σ.agentSessionId = some v)
    (he : ∀ id ∈ sessionIdsOf evs, id = v) :
    ((evs.foldl step σ).agentSessionId = none ∨
      (evs.foldl step σ).agentSessionId = some v) := by
  induction evs generalizing σ with
  | nil => exact h
  | cons e rest ih =>
      refine ih (step σ e) (sessionId_step σ e v h ?_) ?_
      · intro id hid
        refine he id ?_
        simp [sessionIdsOf, List.filterMap_cons, hid]
      · intro id hid
        refine he id ?_
        simp only [sessionIdsOf, List.filterMap_cons]
        cases evSessionId e <;> simp [sessionIdsOf] at hid ⊢ <;> simp [hid]

/-- C9 counterexample: the stored session id does not survive a later
`session` event carrying a different id — the `session` case of
`consumeSSEStream` overwrites `agentSessionId` unconditionally, so after
a dispatch whose stream carries `session "sess-a"` and then, on a later
dispatch, `session "sess-b"`, the stored id is "sess-b", not its first
assigned value "sess-a". -/
theorem sessionIdOverwritten :
    (run [Ev.transcript "please research the eiffel tower history",
          Ev.stream (SSEEvent.session "sess-a")]).agentSessionId = some "sess-a" ∧
    (run [Ev.transcript "please research the eiffel tower history",
          Ev.stream (SSEEvent.session "sess-a"),
          Ev.stream (SSEEvent.session "sess-b")]).agentSessionId = some "sess-b" ∧
    ((some "sess-b" : Option String) ≠ some "sess-a") := by
  decide

/-- C9 (amended): each `session` event stores the id it carries, and
nothing else changes the stored id before overlay close (which resets it
to null).  Hence when every `session` event of the overlay period carries
the same id — as the backend protocol provides, emitting `session` only
from the dispatch that created the session — the stored id only ever
equals that id or null. -/
theorem sessionIdStable (evs : List Ev) (v : String)
    (he : ∀ id ∈ sessionIdsOf evs, id = v) :
    (run evs).agentSessionId = none ∨ (run evs).agentSessionId = some v :=
  sessionId_foldl evs initSys v (Or.inl rfl) he

/-- C9 witness. -/
theorem sessionIdStable_witness :
    (∀ id ∈ sessionIdsOf
        [Ev.transcript "please research the eiffel tower history",
         Ev.stream (SSEEvent.session "sess-a"), Ev.stream SSEEvent.done,
         Ev.streamEnd],
      id = "sess-a") ∧
    ((run [Ev.transcript "please research the eiffel tower history",
           Ev.stream (SSEEvent.session "sess-a"), Ev.stream SSEEvent.done,
           Ev.streamEnd]).agentSessionId = none ∨
      (run [Ev.transcript "please research the eiffel tower history",
            Ev.stream (SSEEvent.session "sess-a"), Ev.stream SSEEvent.done,
            Ev.streamEnd]).agentSessionId = some "sess-a") :=
  ⟨by decide,
   sessionIdStable
     [Ev.transcript "please research the eiffel tower history",
      Ev.stream (SSEEvent.session "sess-a"), Ev.stream SSEEvent.done,
      Ev.streamEnd] "sess-a" (by decide)⟩

/-! ## Claim theorems: overlay teardown (C8) -/

/-- C8 counterexample: the teardown order of `closeOverlay` is not
"SpeechChannelClient first, then PlaybackSequencer, then
AudioCaptureSource, then IdleTimeoutSupervisor": in the emitted teardown
sequence the WebSocket close comes after the playback-queue clear, which
itself comes after `stopMic` and `clearIdleTimer`. -/
theorem closeOverlayOrderNotAsClaimed :
    ¬ (((closeOverlay { initSys with agentSessionId := some "sess-a" }).actions.findIdx
          (fun a => a == Action.wsClose)) <
        ((closeOverlay { initSys with agentSessionId := some "sess-a" }).actions.findIdx
          (fun a => a == Action.playbackQueueClear)) ∧
       ((closeOverlay { initSys with agentSessionId := some "sess-a" }).actions.findIdx
          (fun a => a == Action.playbackQueueClear)) <
        ((closeOverlay { initSys with agentSessionId := some "sess-a" }).actions.findIdx
          (fun a => a == Action.micStop)) ∧
       ((closeOverlay { initSys with agentSessionId := some "sess-a" }).actions.findIdx
          (fun a => a == Action.micStop)) <
        ((closeOverlay { initSys with agentSessionId := some "sess-a" }).actions.findIdx
          (fun a => a == Action.idleTimerClear))) := by
  decide

/-- C8 (amended): with the overlay open, `closeOverlay` performs the
teardown in the order mic-UI update, `stopMic` (AudioCaptureSource),
`clearIdleTimer` (IdleTimeoutSupervisor), `clearPlaybackQueue`
(PlaybackSequencer), then — exactly when a session id exists — the
fire-and-forget close notification whose failure is swallowed, then the
speech-channel WebSocket close and the playback-context close; the stored
session id is reset to null and the overlay marked closed. -/
theorem closeOverlayTeardown (σ : Sys) (h : σ.isOpen = true) :
    (closeOverlay σ).actions = σ.actions ++
      [Action.micUIUpdate, Action.micStop, Action.idleTimerClear,
       Action.playbackQueueClear] ++
      (match σ.agentSessionId with
       | some id => [Action.sessionCloseNotify id]
       | none => []) ++
      [Action.wsClose, Action.playbackCtxClose] ∧
    (closeOverlay σ).agentSessionId = none ∧
    (closeOverlay σ).isOpen = false := by
  unfold closeOverlay
  cases hs : σ.agentSessionId <;> simp [h, hs]

/-- C8 witness. -/
theorem closeOverlayTeardown_witness :
    ({ initSys with agentSessionId := some "sess-a" } : Sys).isOpen = true ∧
    ((closeOverlay { initSys with agentSessionId := some "sess-a" }).actions =
      ({ initSys with agentSessionId := some "sess-a" } : Sys).actions ++
        [Action.micUIUpdate, Action.micStop, Action.idleTimerClear,
         Action.playbackQueueClear] ++
        (match ({ initSys with agentSessionId := some "sess-a" } : Sys).agentSessionId with
         | some id => [Action.sessionCloseNotify id]
         | none => []) ++
        [Action.wsClose, Action.playbackCtxClose] ∧
      (closeOverlay { initSys with agentSessionId := some "sess-a" }).agentSessionId = none ∧
      (closeOverlay { initSys with agentSessionId := some "sess-a" }).isOpen = false) :=
  ⟨rfl, closeOverlayTeardown { initSys with agentSessionId := some "sess-a" } rfl⟩

/-! ## Claim theorems: `speakSummary` readiness gate (C10) -/

/-- C10: when the speech channel is absent, not open, or not yet
setup-acknowledged, `speakSummary` sends nothing; the module keeps no
buffer of unspoken text, so confirmation prompts, result summaries, error
apologies and cancellation acknowledgements routed through it are
discarded, not deferred. -/
theorem speakSummaryDroppedWhenNotReady (ch : ChannelState) (text : String)
    (h : ch.present = false ∨ ch.isOpen = false ∨ ch.ready = false) :
    speakSummary ch text = [] := by
  unfold speakSummary
  rcases h with h | h | h <;> simp [h]

/-- C10 witness: an open but not yet setup-acknowledged channel drops an
error apology. -/
theorem speakSummaryDroppedWhenNotReady_witness :
    (({ present := true, isOpen := true, ready := false } : ChannelState).present = false ∨
      ({ present := true, isOpen := true, ready := false } : ChannelState).isOpen = false ∨
      ({ present := true, isOpen := true, ready := false } : ChannelState).ready = false) ∧
    speakSummary { present := true, isOpen := true, ready := false }
      "I ran into an issue. backend exploded" = [] :=
  ⟨Or.inr (Or.inr rfl),
   speakSummaryDroppedWhenNotReady { present := true, isOpen := true, ready := false }
     "I ran into an issue. backend exploded" (Or.inr (Or.inr rfl))⟩

/-! ## Claim theorems: `floatTo16BitPCM` (C6) -/

lemma truncQ_intCast (n : ℤ) : truncQ (n : ℚ) = n := by
  unfold truncQ
  split <;> simp

lemma truncQ_eval_pos {x : ℚ} {n : ℤ} (h0 : 0 ≤ x) (h1 : (n : ℚ) ≤ x)
    (h2 : x < n + 1) : truncQ x = n := by
  unfold truncQ
  rw [if_pos h0]
  exact Int.floor_eq_iff.mpr ⟨h1, h2⟩

lemma truncQ_eval_neg {x : ℚ} {n : ℤ} (h0 : ¬ 0 ≤ x) (h1 : (n : ℚ) - 1 < x)
    (h2 : x ≤ n) : truncQ x = n := by
  unfold truncQ
  rw [if_neg h0]
  exact Int.ceil_eq_iff.mpr ⟨h1, h2⟩

lemma truncQ_mem {x : ℚ} {lo hi : ℤ} (h1 : (lo : ℚ) ≤ x) (h2 : x ≤ hi) :
    lo ≤ truncQ x ∧ truncQ x ≤ hi := by
  unfold truncQ
  split
  · refine ⟨Int.le_floor.mpr h1, ?_⟩
    calc ⌊x⌋ ≤ ⌊(hi : ℚ)⌋ := Int.floor_le_floor h2
      _ = hi := Int.floor_intCast hi
  · refine ⟨?_, Int.ceil_le.mpr h2⟩
    calc lo = ⌈(lo : ℚ)⌉ := (Int.ceil_intCast lo).symm
      _ ≤ ⌈x⌉ := Int.ceil_le_ceil h1

lemma toInt16_eq_self {n : ℤ} (h1 : -32768 ≤ n) (h2 : n ≤ 32767) :
    toInt16 n = n := by
  unfold toInt16
  omega

lemma truncQ_eq_pos {x : ℚ} {n : ℤ} (hn : 0 < n) (h : truncQ x = n) :
    (n : ℚ) ≤ x ∧ x < n + 1 := by
  unfold truncQ at h
  split at h
  · exact Int.floor_eq_iff.mp h
  · exfalso
    have hx : x ≤ 0 := le_of_not_le (by assumption)
    have : ⌈x⌉ ≤ 0 := Int.ceil_le.mpr (by exact_mod_cast hx)
    omega

lemma truncQ_eq_neg {x : ℚ} {n : ℤ} (hn : n < 0) (h : truncQ x = n) :
    (n : ℚ) - 1 < x ∧ x ≤ n := by
  unfold truncQ at h
  split at h
  · exfalso
    have h0 : (0 : ℚ) ≤ x := by assumption
    have : 0 ≤ ⌊x⌋ := Int.le_floor.mpr (by exact_mod_cast h0)
    omega
  · exact Int.ceil_eq_iff.mp h

lemma truncQ_eq_zero {x : ℚ} (h : truncQ x = 0) : -1 < x ∧ x < 1 := by
  unfold truncQ at h
  split at h
  · have := Int.floor_eq_iff.mp h
    push_cast at this
    exact ⟨by linarith [this.1], by linarith [this.2]⟩
  · have := Int.ceil_eq_iff.mp h
    push_cast at this
    exact ⟨by linarith [this.1], by linarith [this.2]⟩

lemma pcmSample_one : pcmSample 1 = 32767 := by
  have hc : jsClamp (1 : ℚ) = 1 := by unfold jsClamp; norm_num
  unfold pcmSample
  rw [hc, if_neg (by norm_num),
    show ((1 : ℚ) * 32767) = ((32767 : ℤ) : ℚ) by norm_num, truncQ_intCast]
  decide

lemma pcmSample_negOne : pcmSample (-1) = -32768 := by
  have hc : jsClamp (-1 : ℚ) = -1 := by unfold jsClamp; norm_num
  unfold pcmSample
  rw [hc, if_pos (by norm_num),
    show ((-1 : ℚ) * 32768) = ((-32768 : ℤ) : ℚ) by norm_num, truncQ_intCast]
  decide

lemma pcmSample_nearOne : pcmSample (16777215 / 16777216) = 32766 := by
  have hc : jsClamp (16777215 / 16777216 : ℚ) = 16777215 / 16777216 := by
    unfold jsClamp
    rw [min_eq_right (by norm_num), max_eq_right (by norm_num)]
  unfold pcmSample
  rw [hc, if_neg (by norm_num),
    truncQ_eval_pos (n := 32766) (by norm_num) (by norm_num) (by norm_num)]
  decide

lemma pcmSample_nearNegOne : pcmSample (-(16777215 / 16777216)) = -32767 := by
  have hc : jsClamp (-(16777215 / 16777216) : ℚ) = -(16777215 / 16777216) := by
    unfold jsClamp
    rw [min_eq_right (by norm_num), max_eq_right (by norm_num)]
  unfold pcmSample
  rw [hc, if_pos (by norm_num),
    truncQ_eval_neg (n := -32767) (by norm_num) (by norm_num) (by norm_num)]
  decide

lemma pcmSample_smallNeg : pcmSample (-(257 / 16777216)) = 0 := by
  have hc : jsClamp (-(257 / 16777216) : ℚ) = -(257 / 16777216) := by
    unfold jsClamp
    rw [min_eq_right (by norm_num), max_eq_right (by norm_num)]
  unfold pcmSample
  rw [hc, if_pos (by norm_num),
    truncQ_eval_neg (n := 0) (by norm_num) (by norm_num) (by norm_num)]
  decide

/-- C6 counterexample: no single linear rescaling reproduces
`floatTo16BitPCM`: there are no coefficients `a`, `b` such that
truncating `a * s + b` matches the conversion on the five representable
samples `1`, `-1`, `16777215/2^24`, `-16777215/2^24` and `-257/2^24`.
The conversion is piecewise linear — negative samples scale by `0x8000`,
non-negative ones by `0x7FFF` — and the two slopes cannot be reconciled
by any one affine map. -/
theorem pcmNoSingleLinearRescale :
    ¬ ∃ a b : ℚ,
        truncQ (a * 1 + b) = pcmSample 1 ∧
        truncQ (a * (-1) + b) = pcmSample (-1) ∧
        truncQ (a * (16777215 / 16777216) + b) = pcmSample (16777215 / 16777216) ∧
        truncQ (a * (-(16777215 / 16777216)) + b) = pcmSample (-(16777215 / 16777216)) ∧
        truncQ (a * (-(257 / 16777216)) + b) = pcmSample (-(257 / 16777216)) := by
  rintro ⟨a, b, h1, h2, h3, h4, h5⟩
  rw [pcmSample_one] at h1
  rw [pcmSample_negOne] at h2
  rw [pcmSample_nearOne] at h3
  rw [pcmSample_nearNegOne] at h4
  rw [pcmSample_smallNeg] at h5
  obtain ⟨l1, u1⟩ := truncQ_eq_pos (by norm_num) h1
  obtain ⟨l2, u2⟩ := truncQ_eq_neg (by norm_num) h2
  obtain ⟨l3, u3⟩ := truncQ_eq_pos (by norm_num) h3
  obtain ⟨l4, u4⟩ := truncQ_eq_neg (by norm_num) h4
  obtain ⟨l5, u5⟩ := truncQ_eq_zero h5
  push_cast at l1 u1 l2 u2 l3 u3 l4 u4
  linarith [l1, u2, u3, u4, l5]

/-- C6 (amended): `floatTo16BitPCM` clamps every sample to [-1, 1] and
rescales it piecewise linearly — negative samples by 0x8000, non-negative
ones by 0x7FFF — truncating to an integer in [-32768, 32767] (so the
Int16Array store never wraps). -/
theorem floatTo16BitPCM_clampedPiecewise (frame : List ℚ) (y : ℤ)
    (hy : y ∈ floatTo16BitPCM frame) :
    -32768 ≤ y ∧ y ≤ 32767 ∧
    ∃ x ∈ frame,
      y = truncQ (if jsClamp x < 0 then jsClamp x * 32768 else jsClamp x * 32767) := by
  obtain ⟨x, hx, rfl⟩ := List.mem_map.mp hy
  have hclo : (-1 : ℚ) ≤ jsClamp x := le_max_left _ _
  have hchi : jsClamp x ≤ 1 := max_le (by norm_num) (min_le_left _ _)
  have hbounds : -32768 ≤ truncQ (if jsClamp x < 0 then jsClamp x * 32768
        else jsClamp x * 32767) ∧
      truncQ (if jsClamp x < 0 then jsClamp x * 32768 else jsClamp x * 32767) ≤ 32767 := by
    split
    · next hneg => exact truncQ_mem (by push_cast; linarith) (by push_cast; linarith)
    · next hpos =>
        have h0 : (0 : ℚ) ≤ jsClamp x := le_of_not_lt hpos
        exact truncQ_mem (by push_cast; linarith) (by push_cast; linarith)
  refine ⟨?_, ?_, x, hx, ?_⟩
  · rw [pcmSample, toInt16_eq_self hbounds.1 hbounds.2]; exact hbounds.1
  · rw [pcmSample, toInt16_eq_self hbounds.1 hbounds.2]; exact hbounds.2
  · rw [pcmSample, toInt16_eq_self hbounds.1 hbounds.2]

/-- C6 witness for the amended claim. -/
theorem floatTo16BitPCM_clampedPiecewise_witness :
    (32767 : ℤ) ∈ floatTo16BitPCM [(1 : ℚ)] ∧
    (-32768 ≤ (32767 : ℤ) ∧ (32767 : ℤ) ≤ 32767 ∧
      ∃ x ∈ [(1 : ℚ)],
        (32767 : ℤ) =
          truncQ (if jsClamp x < 0 then jsClamp x * 32768 else jsClamp x * 32767)) :=
  have hmem : (32767 : ℤ) ∈ floatTo16BitPCM [(1 : ℚ)] := by
    simp [floatTo16BitPCM, pcmSample_one]
  ⟨hmem, floatTo16BitPCM_clampedPiecewise [(1 : ℚ)] 32767 hmem⟩

/-- C4 witness for the amended claim. -/
theorem confirmationGateStep_witness :
    (run [Ev.transcript "please research the eiffel tower history"]).isProcessingAgent
      = true ∧
    (step (run [Ev.transcript "please research the eiffel tower history"])
        (Ev.stream (SSEEvent.confirmation_required
          { intent := "file_operation", prompt := "Delete the file. Continue?",
            original_text := "delete my notes file" }))).pendingConfirmation =
      some { intent := "file_operation", prompt := "Delete the file. Continue?",
             original_text := "delete my notes file" } :=
  ⟨by decide,
   (confirmationGateStep (run [Ev.transcript "please research the eiffel tower history"])
      { intent := "file_operation", prompt := "Delete the file. Continue?",
        original_text := "delete my notes file" } (by decide)).1⟩

end PantherLive
